import Mathlib

/-!
Verification of the client-side TTL cache (`CacheService` in the API access
layer): key derivation, TTL policy resolution, lazy-expiry `get`, `set`,
substring invalidation and its cascades, and diagnostic stats.

Times and TTLs are modelled as `Int` (JS millisecond numbers); the store,
a JS `Map<string, CacheEntry>`, is modelled as an insertion-ordered
association list with unique keys maintained by `mapSet`. Strings are Lean
`String`s; JS `String.prototype.includes` is literal substring containment
on the character data.
-/

namespace CacheModel

/-- `CacheEntry<T>`: `data`, `timestamp` (ms since epoch), `ttl` (ms). -/
structure CacheEntry (α : Type) where
  data : α
  timestamp : Int
  ttl : Int
deriving DecidableEq, Repr

/-- `CacheConfig`: per-kind TTLs in minutes. -/
structure CacheConfig where
  products : Int
  productList : Int
  featuredProducts : Int
  categories : Int
  favorites : Int
  favoritesCount : Int
  usersList : Int
deriving DecidableEq, Repr

/-- `DEFAULT_TTL`: products 30, productList 30, featuredProducts 30,
categories 5, favorites 5, favoritesCount 5, usersList 10 (minutes). -/
def DEFAULT_TTL : CacheConfig :=
  ⟨30, 30, 30, 5, 5, 5, 10⟩

/-- JS `s.includes(pattern)`: `pattern` occurs in `s` as a contiguous
substring. -/
def includes (s pattern : String) : Bool :=
  decide (pattern.data <:+: s.data)

/-- Lexicographic comparison of character sequences: the default JS
`Array.prototype.sort` comparison on strings (by code unit). -/
def leChars : List Char → List Char → Bool
  | [], _ => true
  | _ :: _, [] => false
  | a :: as, b :: bs => if a < b then true else if b < a then false else leChars as bs

theorem leChars_total (a b : List Char) : leChars a b = true ∨ leChars b a = true := by
  induction a generalizing b with
  | nil => exact Or.inl rfl
  | cons x as ih =>
    cases b with
    | nil => exact Or.inr rfl
    | cons y bs =>
      rcases lt_trichotomy x y with h | h | h
      · exact Or.inl (by simp [leChars, h])
      · subst h
        rcases ih bs with h' | h'
        · exact Or.inl (by simp [leChars, lt_irrefl, h'])
        · exact Or.inr (by simp [leChars, lt_irrefl, h'])
      · exact Or.inr (by simp [leChars, h])

theorem leChars_trans {a b c : List Char} (h1 : leChars a b = true)
    (h2 : leChars b c = true) : leChars a c = true := by
  induction a generalizing b c with
  | nil => rfl
  | cons x as ih =>
    cases b with
    | nil => simp [leChars] at h1
    | cons y bs =>
      cases c with
      | nil => simp [leChars] at h2
      | cons z cs =>
        simp only [leChars] at h1 h2 ⊢
        rcases lt_trichotomy x y with hxy | hxy | hxy
        · rcases lt_trichotomy y z with hyz | hyz | hyz
          · simp [lt_trans hxy hyz]
          · subst hyz; simp [hxy]
          · simp [hyz, lt_asymm hyz] at h2
        · subst hxy
          rcases lt_trichotomy x z with hxz | hxz | hxz
          · simp [hxz]
          · subst hxz
            simp [lt_irrefl] at h1 h2 ⊢
            exact ih h1 h2
          · simp [hxz, lt_asymm hxz] at h2
        · simp [hxy, lt_asymm hxy] at h1

theorem leChars_antisymm {a b : List Char} (h1 : leChars a b = true)
    (h2 : leChars b a = true) : a = b := by
  induction a generalizing b with
  | nil =>
    cases b with
    | nil => rfl
    | cons y bs => simp [leChars] at h2
  | cons x as ih =>
    cases b with
    | nil => simp [leChars] at h1
    | cons y bs =>
      simp only [leChars] at h1 h2
      rcases lt_trichotomy x y with hxy | hxy | hxy
      · simp [hxy, lt_asymm hxy] at h2
      · subst hxy
        simp [lt_irrefl] at h1 h2
        exact congrArg (x :: ·) (ih h1 h2)
      · simp [hxy, lt_asymm hxy] at h1

/-- The relation `Object.keys(params).sort()` sorts by: parameter name,
lexicographically on the name's characters. -/
def paramLE (p q : String × String) : Prop :=
  leChars p.1.data q.1.data = true

instance : DecidableRel paramLE :=
  fun _ _ => inferInstanceAs (Decidable (_ = true))

instance : IsTotal (String × String) paramLE :=
  ⟨fun p q => leChars_total p.1.data q.1.data⟩

instance : IsTrans (String × String) paramLE :=
  ⟨fun _ _ _ h h' => leChars_trans h h'⟩

/-- Strict companion of `paramLE`, used to show sorted outputs are unique
when parameter names are distinct. -/
def paramLT (p q : String × String) : Prop :=
  paramLE p q ∧ p.1 ≠ q.1

instance : IsAntisymm (String × String) paramLT :=
  ⟨fun _ _ h h' =>
    absurd (congrArg String.mk (leChars_antisymm h.1 h'.1)) h.2⟩

/-- `Object.keys(params).sort()` applied to the name/value pairs: the
pairs sorted by name. -/
def sortedParams (params : List (String × String)) : List (String × String) :=
  List.insertionSort paramLE params

/-- `.map(key => KEY=VALUE).join('&')` over the sorted pairs. -/
def renderParams : List (String × String) → String
  | [] => ""
  | [p] => p.1 ++ "=" ++ p.2
  | p :: rest => p.1 ++ "=" ++ p.2 ++ "&" ++ renderParams rest

/-- `CacheService.generateKey`: the endpoint alone when there are no
parameters, otherwise `endpoint?name=value&...` with pairs sorted by
name. -/
def generateKey (endpoint : String) (params : List (String × String)) : String :=
  if params.isEmpty then endpoint
  else endpoint ++ "?" ++ renderParams (sortedParams params)

/-- `CacheService.getTTL`: the if-chain of `key.includes` tests, most
specific first, returning minutes × 60 × 1000. -/
def getTTL (cfg : CacheConfig) (key : String) : Int :=
  if includes key "/products/featured" then cfg.featuredProducts * 60 * 1000
  else if includes key "/products/categories" then cfg.categories * 60 * 1000
  else if includes key "/products/" && !includes key "?" then cfg.products * 60 * 1000
  else if includes key "/products" then cfg.productList * 60 * 1000
  else if includes key "/favorites/count" then cfg.favoritesCount * 60 * 1000
  else if includes key "/favorites" then cfg.favorites * 60 * 1000
  else if includes key "/users" then cfg.usersList * 60 * 1000
  else 5 * 60 * 1000

/-- The store of a `CacheService`: a JS `Map<string, CacheEntry<any>>` as
an insertion-ordered association list. -/
def Store (α : Type) : Type :=
  List (String × CacheEntry α)

/-- `Map.prototype.get`. -/
def mapGet (st : Store α) (k : String) : Option (CacheEntry α) :=
  (st.find? (fun p => p.1 == k)).map Prod.snd

/-- `Map.prototype.set`: replace in place when the key is present,
append otherwise. -/
def mapSet (st : Store α) (k : String) (e : CacheEntry α) : Store α :=
  match st with
  | [] => [(k, e)]
  | q :: rest => if q.1 == k then (k, e) :: rest else q :: mapSet rest k e

/-- `Map.prototype.delete k` (on a map with unique keys). -/
def mapDelete (st : Store α) (k : String) : Store α :=
  st.filter (fun p => !(p.1 == k))

/-- `CacheService.get`: derive the key; absent → `none`; expired
(`now - timestamp > ttl`) → delete the entry and return `none`; fresh →
return the payload, store untouched. Returns the result paired with the
store after the call. -/
def cacheGet (st : Store α) (now : Int) (endpoint : String)
    (params : List (String × String)) : Option α × Store α :=
  let key := generateKey endpoint params
  match mapGet st key with
  | none => (none, st)
  | some e =>
    if e.ttl < now - e.timestamp then (none, mapDelete st key)
    else (some e.data, st)

/-- `CacheService.set`: derive the key, resolve the TTL from that key,
store `{data, timestamp := now, ttl}` overwriting any entry at the key. -/
def cacheSet (cfg : CacheConfig) (st : Store α) (now : Int) (endpoint : String)
    (d : α) (params : List (String × String)) : Store α :=
  let key := generateKey endpoint params
  mapSet st key ⟨d, now, getTTL cfg key⟩

/-- `CacheService.invalidate`: delete every entry whose key contains
`pattern` as a literal substring. -/
def cacheInvalidate (st : Store α) (pattern : String) : Store α :=
  st.filter (fun p => !(includes p.1 pattern))

/-- `CacheService.invalidateProducts`. -/
def invalidateProducts (st : Store α) : Store α :=
  cacheInvalidate st "/products"

/-- `CacheService.invalidateFavorites`. -/
def invalidateFavorites (st : Store α) : Store α :=
  cacheInvalidate st "/favorites"

/-- `CacheService.invalidateUsers`. -/
def invalidateUsers (st : Store α) : Store α :=
  cacheInvalidate st "/users"

/-- `CacheService.invalidateProduct`: invalidate `/products/ID`, then
cascade to `invalidateProducts`. -/
def invalidateProduct (st : Store α) (productId : String) : Store α :=
  invalidateProducts (cacheInvalidate st ("/products/" ++ productId))

/-- `CacheService.clear`. -/
def cacheClear (_st : Store α) : Store α :=
  []

/-- `CacheService.getStats`: `{size, keys}` with no freshness filtering. -/
def getStats (st : Store α) : Nat × List String :=
  (st.length, st.map Prod.fst)

theorem mapGet_mapSet_self (st : Store α) (k : String) (e : CacheEntry α) :
    mapGet (mapSet st k e) k = some e := by
  induction st with
  | nil => simp [mapGet, mapSet]
  | cons q rest ih =>
    by_cases h : q.1 == k
    · simp [mapSet, h, mapGet]
    · simpa [mapSet, h, mapGet] using ih

theorem mapGet_filter_none (f : String × CacheEntry α → Bool) (st : Store α)
    (k : String) (h : ∀ p : String × CacheEntry α, p.1 = k → f p = false) :
    mapGet (st.filter f) k = none := by
  have : List.find? (fun p : String × CacheEntry α => p.1 == k) (st.filter f) = none := by
    rw [List.find?_eq_none]
    intro x hx hbeq
    have hk : x.1 = k := by simpa using hbeq
    have := h x hk
    have hf : f x = true := (List.mem_filter.mp hx).2
    simp [this] at hf
  simp [mapGet, this]

theorem mapGet_filter_keep (f : String × CacheEntry α → Bool) (st : Store α)
    (k : String) (h : ∀ p : String × CacheEntry α, p.1 = k → f p = true) :
    mapGet (st.filter f) k = mapGet st k := by
  induction st with
  | nil => rfl
  | cons q rest ih =>
    by_cases hq : q.1 == k
    · have hk : q.1 = k := by simpa using hq
      have : f q = true := h q hk
      simp [mapGet, List.filter_cons, this, hq]
    · cases hf : f q with
      | true => simpa [mapGet, List.filter_cons, hf, hq] using ih
      | false => simpa [mapGet, List.filter_cons, hf, hq] using ih

theorem mapGet_mapDelete_self (st : Store α) (k : String) :
    mapGet (mapDelete st k) k = none := by
  apply mapGet_filter_none
  intro p hp
  simp [hp]

theorem mapGet_mapDelete_other (st : Store α) (k k' : String) (h : k' ≠ k) :
    mapGet (mapDelete st k) k' = mapGet st k' := by
  apply mapGet_filter_keep
  intro p hp
  simp [hp, h]

theorem mapGet_cacheInvalidate_of_includes (st : Store α) (pat k : String)
    (h : includes k pat = true) :
    mapGet (cacheInvalidate st pat) k = none := by
  apply mapGet_filter_none
  intro p hp
  simp [hp, h]

theorem mapGet_cacheInvalidate_of_not_includes (st : Store α) (pat k : String)
    (h : includes k pat = false) :
    mapGet (cacheInvalidate st pat) k = mapGet st k := by
  apply mapGet_filter_keep
  intro p hp
  simp [hp, h]

theorem mem_keys_of_mapGet (st : Store α) (k : String) (e : CacheEntry α)
    (h : mapGet st k = some e) : k ∈ st.map Prod.fst := by
  simp only [mapGet, Option.map_eq_some'] at h
  obtain ⟨p, hp, _⟩ := h
  have hmem := List.mem_of_find?_eq_some hp
  have hk : p.1 = k := by simpa using List.find?_some hp
  exact hk ▸ List.mem_map_of_mem Prod.fst hmem

theorem length_mapDelete_of_mem (st : Store α) (k : String)
    (hnd : (st.map Prod.fst).Nodup) (hmem : k ∈ st.map Prod.fst) :
    (mapDelete st k).length + 1 = st.length := by
  induction st with
  | nil => simp at hmem
  | cons q rest ih =>
    simp only [List.map_cons, List.nodup_cons] at hnd
    by_cases hq : q.1 = k
    · subst hq
      have hall : ∀ p ∈ rest, (fun p : String × CacheEntry α => !(p.1 == q.1)) p = true := by
        intro p hp
        have : p.1 ≠ q.1 := fun h => hnd.1 (h ▸ List.mem_map_of_mem Prod.fst hp)
        simp [this]
      simp [mapDelete, List.filter_cons, List.filter_eq_self.mpr hall]
    · have hmem' : k ∈ rest.map Prod.fst := by
        rcases List.mem_cons.mp hmem with h | h
        · exact absurd h.symm hq
        · exact h
      have hih := ih hnd.2 hmem'
      have hb : (q.1 == k) = false := by simp [hq]
      simp only [mapDelete, List.filter_cons, hb, Bool.not_false, if_pos, List.length_cons] at hih ⊢
      omega

/-- Sample entry used to instantiate witnesses on concrete stores. -/
def E0 : CacheEntry Nat :=
  ⟨0, 0, 0⟩

/-- Claim C1: an entry written by `set` at time `t0` with effective TTL `T`
is returned unchanged by `get` at any time `t` with `t - t0 ≤ T` (the
boundary counts as fresh), and for `t - t0 > T` the `get` deletes the entry
and returns absent. -/
theorem C1_ttl_expiry {α : Type} (cfg : CacheConfig) (st : Store α) (t0 t : Int)
    (endpoint : String) (params : List (String × String)) (d : α) :
    (t - t0 ≤ getTTL cfg (generateKey endpoint params) →
      cacheGet (cacheSet cfg st t0 endpoint d params) t endpoint params =
        (some d, cacheSet cfg st t0 endpoint d params)) ∧
    (getTTL cfg (generateKey endpoint params) < t - t0 →
      cacheGet (cacheSet cfg st t0 endpoint d params) t endpoint params =
        (none, mapDelete (cacheSet cfg st t0 endpoint d params) (generateKey endpoint params)) ∧
      mapGet (mapDelete (cacheSet cfg st t0 endpoint d params) (generateKey endpoint params))
        (generateKey endpoint params) = none) := by
  have hget : mapGet (cacheSet cfg st t0 endpoint d params) (generateKey endpoint params) =
      some ⟨d, t0, getTTL cfg (generateKey endpoint params)⟩ :=
    mapGet_mapSet_self st (generateKey endpoint params) _
  constructor
  · intro h
    simp only [cacheGet, hget]
    rw [if_neg]
    simp only [not_lt]
    omega
  · intro h
    simp only [cacheGet, hget]
    rw [if_pos (by omega)]
    exact ⟨rfl, mapGet_mapDelete_self _ _⟩

/-- Witness for C1 at a concrete input: an entry stored at time 0 under
`/products` is served at the TTL boundary `t = 1800000` and evicted at
`t = 1800001`. -/
theorem C1_witness :
    cacheGet (cacheSet DEFAULT_TTL ([] : Store Nat) 0 "/products" 42 []) 1800000 "/products" [] =
      (some 42, cacheSet DEFAULT_TTL ([] : Store Nat) 0 "/products" 42 []) ∧
    cacheGet (cacheSet DEFAULT_TTL ([] : Store Nat) 0 "/products" 42 []) 1800001 "/products" [] =
      (none, mapDelete (cacheSet DEFAULT_TTL ([] : Store Nat) 0 "/products" 42 []) (generateKey "/products" [])) :=
  ⟨(C1_ttl_expiry DEFAULT_TTL [] 0 1800000 "/products" [] 42).1 (by decide),
   ((C1_ttl_expiry DEFAULT_TTL [] 0 1800001 "/products" [] 42).2 (by decide)).1⟩

/-- Claim C2: `invalidate s` deletes exactly the entries whose key contains
`s` as a literal substring; lookups for keys not containing `s` are
unaffected. -/
theorem C2_substring_invalidation {α : Type} (st : Store α) (s k : String) :
    (includes k s = true → mapGet (cacheInvalidate st s) k = none) ∧
    (includes k s = false → mapGet (cacheInvalidate st s) k = mapGet st k) :=
  ⟨mapGet_cacheInvalidate_of_includes st s k,
   mapGet_cacheInvalidate_of_not_includes st s k⟩

/-- Witness for C2 on the spec's example store: `invalidate "/items"`
removes `/items`, `/items/7`, `/items?category=x` and keeps `/other`. -/
theorem C2_witness :
    mapGet (cacheInvalidate [("/items", E0), ("/items/7", E0), ("/items?category=x", E0), ("/other", E0)] "/items") "/items" = none ∧
    mapGet (cacheInvalidate [("/items", E0), ("/items/7", E0), ("/items?category=x", E0), ("/other", E0)] "/items") "/items/7" = none ∧
    mapGet (cacheInvalidate [("/items", E0), ("/items/7", E0), ("/items?category=x", E0), ("/other", E0)] "/items") "/items?category=x" = none ∧
    mapGet (cacheInvalidate [("/items", E0), ("/items/7", E0), ("/items?category=x", E0), ("/other", E0)] "/items") "/other" =
      mapGet [("/items", E0), ("/items/7", E0), ("/items?category=x", E0), ("/other", E0)] "/other" :=
  ⟨(C2_substring_invalidation _ "/items" "/items").1 (by decide),
   (C2_substring_invalidation _ "/items" "/items/7").1 (by decide),
   (C2_substring_invalidation _ "/items" "/items?category=x").1 (by decide),
   (C2_substring_invalidation _ "/items" "/other").2 (by decide)⟩

/-- Claim C5: a `get` on an expired entry returns absent and evicts it, so
the following `stats` no longer lists the key and the count shrinks by
one; `stats` itself applies no freshness filter, so the expired-but-not-yet
queried key is still listed beforehand. -/
theorem C5_lazy_eviction_stats {α : Type} (st : Store α) (now : Int)
    (endpoint : String) (params : List (String × String)) (e : CacheEntry α)
    (hnd : (st.map Prod.fst).Nodup)
    (hfound : mapGet st (generateKey endpoint params) = some e)
    (hexp : e.ttl < now - e.timestamp) :
    cacheGet st now endpoint params =
      (none, mapDelete st (generateKey endpoint params)) ∧
    generateKey endpoint params ∉ (getStats (mapDelete st (generateKey endpoint params))).2 ∧
    (getStats (mapDelete st (generateKey endpoint params))).1 + 1 = (getStats st).1 ∧
    generateKey endpoint params ∈ (getStats st).2 := by
  refine ⟨?_, ?_, ?_, ?_⟩
  · simp only [cacheGet, hfound]
    rw [if_pos hexp]
  · simp only [getStats, mapDelete, List.mem_map]
    rintro ⟨p, hp, hk⟩
    have := (List.mem_filter.mp hp).2
    simp [hk] at this
  · exact length_mapDelete_of_mem st _ hnd (mem_keys_of_mapGet st _ e hfound)
  · exact mem_keys_of_mapGet st _ e hfound

/-- Witness for C5: a store holding an expired `/products` entry (written
at 0, TTL 1800000, queried at 2000000) and a live `/other` entry. -/
theorem C5_witness :
    cacheGet [("/products", (⟨7, 0, 1800000⟩ : CacheEntry Nat)), ("/other", E0)] 2000000 "/products" [] =
      (none, mapDelete [("/products", (⟨7, 0, 1800000⟩ : CacheEntry Nat)), ("/other", E0)] (generateKey "/products" [])) ∧
    generateKey "/products" [] ∉ (getStats (mapDelete [("/products", (⟨7, 0, 1800000⟩ : CacheEntry Nat)), ("/other", E0)] (generateKey "/products" []))).2 ∧
    (getStats (mapDelete [("/products", (⟨7, 0, 1800000⟩ : CacheEntry Nat)), ("/other", E0)] (generateKey "/products" []))).1 + 1 =
      (getStats [("/products", (⟨7, 0, 1800000⟩ : CacheEntry Nat)), ("/other", E0)]).1 ∧
    generateKey "/products" [] ∈ (getStats [("/products", (⟨7, 0, 1800000⟩ : CacheEntry Nat)), ("/other", E0)]).2 :=
  C5_lazy_eviction_stats [("/products", ⟨7, 0, 1800000⟩), ("/other", E0)] 2000000 "/products" []
    ⟨7, 0, 1800000⟩ (by decide) (by decide) (by decide)

/-- Claim C6: a `get` that hits a fresh entry returns the stored payload
and leaves the whole store unchanged — timestamps, TTLs and every other
entry included, so the entry still expires at `storedAt + ttl`. -/
theorem C6_no_refresh_on_read {α : Type} (st : Store α) (now : Int)
    (endpoint : String) (params : List (String × String)) (e : CacheEntry α)
    (hfound : mapGet st (generateKey endpoint params) = some e)
    (hfresh : now - e.timestamp ≤ e.ttl) :
    cacheGet st now endpoint params = (some e.data, st) := by
  simp only [cacheGet, hfound]
  rw [if_neg (by omega)]

/-- Witness for C6: reading a fresh `/products` entry at time 1000000
returns the payload and leaves the store exactly as it was. -/
theorem C6_witness :
    cacheGet [("/products", (⟨7, 0, 1800000⟩ : CacheEntry Nat)), ("/other", E0)] 1000000 "/products" [] =
      (some 7, [("/products", (⟨7, 0, 1800000⟩ : CacheEntry Nat)), ("/other", E0)]) :=
  C6_no_refresh_on_read [("/products", ⟨7, 0, 1800000⟩), ("/other", E0)] 1000000 "/products" []
    ⟨7, 0, 1800000⟩ (by decide) (by decide)

/-- Claim C7: a second `set` for the same key replaces the first entry:
the stored payload is the second one, `storedAt` is the second call's
time, and the TTL is resolved afresh from the key. -/
theorem C7_overwrite {α : Type} (cfg : CacheConfig) (st : Store α) (t1 t2 : Int)
    (endpoint : String) (params : List (String × String)) (d1 d2 : α) :
    mapGet (cacheSet cfg (cacheSet cfg st t1 endpoint d1 params) t2 endpoint d2 params)
      (generateKey endpoint params) =
      some ⟨d2, t2, getTTL cfg (generateKey endpoint params)⟩ :=
  mapGet_mapSet_self _ _ _

theorem includes_mono {k big small : String} (h : includes k big = true)
    (hps : small.data <:+: big.data) : includes k small = true := by
  simp only [includes, decide_eq_true_eq] at h ⊢
  exact hps.trans h

theorem includes_false_of_mono {k big small : String}
    (h : includes k small = false) (hps : small.data <:+: big.data) :
    includes k big = false := by
  cases hb : includes k big with
  | false => rfl
  | true => rw [includes_mono hb hps] at h; cases h

/-- Claim C8: `invalidateProduct id` removes the item-detail entry for
`id` and every list/collection entry under the products resource (any key
containing the detail marker or the `/products` marker), and leaves every
entry whose key does not contain `/products` untouched. -/
theorem C8_single_item_cascade {α : Type} (st : Store α) (productId k : String) :
    ((includes k ("/products/" ++ productId) = true ∨ includes k "/products" = true) →
      mapGet (invalidateProduct st productId) k = none) ∧
    (includes k "/products" = false →
      mapGet (invalidateProduct st productId) k = mapGet st k) := by
  have hinf : ("/products").data <:+: ("/products/" ++ productId).data := by
    refine List.IsPrefix.isInfix ?_
    rw [String.data_append]
    exact List.IsPrefix.trans (by decide) (List.prefix_append _ _)
  constructor
  · intro h
    have hprod : includes k "/products" = true := by
      rcases h with h | h
      · exact includes_mono h hinf
      · exact h
    exact mapGet_cacheInvalidate_of_includes _ "/products" k hprod
  · intro h
    have hdetail : includes k ("/products/" ++ productId) = false :=
      includes_false_of_mono h hinf
    unfold invalidateProduct invalidateProducts
    rw [mapGet_cacheInvalidate_of_not_includes _ "/products" k h,
      mapGet_cacheInvalidate_of_not_includes _ _ k hdetail]

/-- Witness for C8: with a detail entry `/products/7`, a list entry
`/products?page=1` and an unrelated `/categories` entry,
`invalidateProduct "7"` removes the first two and keeps the third. -/
theorem C8_witness :
    mapGet (invalidateProduct [("/products/7", E0), ("/products?page=1", E0), ("/categories", E0)] "7") "/products/7" = none ∧
    mapGet (invalidateProduct [("/products/7", E0), ("/products?page=1", E0), ("/categories", E0)] "7") "/products?page=1" = none ∧
    mapGet (invalidateProduct [("/products/7", E0), ("/products?page=1", E0), ("/categories", E0)] "7") "/categories" =
      mapGet [("/products/7", E0), ("/products?page=1", E0), ("/categories", E0)] "/categories" :=
  ⟨(C8_single_item_cascade _ "7" "/products/7").1 (Or.inl (by decide)),
   (C8_single_item_cascade _ "7" "/products?page=1").1 (Or.inr (by decide)),
   (C8_single_item_cascade _ "7" "/categories").2 (by decide)⟩

/-- Claim C9: TTL rules resolve most specific first: a key containing the
featured marker (which necessarily also contains the plain `/products`
list marker) gets the featured TTL, and a key matching no rule gets the
5-minute default. -/
theorem C9_policy_resolution_order (cfg : CacheConfig) (key : String) :
    (includes key "/products/featured" = true →
      includes key "/products" = true ∧
      getTTL cfg key = cfg.featuredProducts * 60 * 1000) ∧
    (includes key "/products" = false → includes key "/favorites" = false →
      includes key "/users" = false →
      getTTL cfg key = 5 * 60 * 1000) := by
  constructor
  · intro h
    refine ⟨includes_mono h (by decide), ?_⟩
    simp [getTTL, h]
  · intro h1 h2 h3
    have hf : includes key "/products/featured" = false :=
      includes_false_of_mono h1 (by decide)
    have hc : includes key "/products/categories" = false :=
      includes_false_of_mono h1 (by decide)
    have hd : includes key "/products/" = false :=
      includes_false_of_mono h1 (by decide)
    have hfc : includes key "/favorites/count" = false :=
      includes_false_of_mono h2 (by decide)
    simp [getTTL, hf, hc, hd, h1, hfc, h2, h3]

/-- Witness for C9: `/products/featured?x=1` contains both the featured
marker and the list marker and resolves to the featured TTL; `/auth/login`
matches no rule and resolves to the 5-minute default. -/
theorem C9_witness :
    (includes "/products/featured?x=1" "/products" = true ∧
      getTTL DEFAULT_TTL "/products/featured?x=1" = DEFAULT_TTL.featuredProducts * 60 * 1000) ∧
    getTTL DEFAULT_TTL "/auth/login" = 5 * 60 * 1000 :=
  ⟨(C9_policy_resolution_order DEFAULT_TTL "/products/featured?x=1").1 (by decide),
   (C9_policy_resolution_order DEFAULT_TTL "/auth/login").2 (by decide) (by decide) (by decide)⟩

theorem sortedParams_strictSorted (l : List (String × String))
    (hnd : (l.map Prod.fst).Nodup) :
    List.Sorted paramLT (sortedParams l) := by
  have hs : List.Sorted paramLE (sortedParams l) :=
    List.sorted_insertionSort paramLE l
  have hperm : List.Perm ((sortedParams l).map Prod.fst) (l.map Prod.fst) :=
    (List.perm_insertionSort paramLE l).map Prod.fst
  have hnd' : ((sortedParams l).map Prod.fst).Nodup := hperm.nodup_iff.mpr hnd
  have hne : (sortedParams l).Pairwise (fun p q : String × String => p.1 ≠ q.1) :=
    (List.pairwise_map.mp hnd')
  exact (hs.and hne).imp (fun h => ⟨h.1, h.2⟩)

theorem sortedParams_eq_of_perm {l1 l2 : List (String × String)}
    (hperm : l1.Perm l2) (hnd : (l1.map Prod.fst).Nodup) :
    sortedParams l1 = sortedParams l2 := by
  have hnd2 : (l2.map Prod.fst).Nodup := ((hperm.map Prod.fst).nodup_iff).mp hnd
  have hp : List.Perm (sortedParams l1) (sortedParams l2) :=
    ((List.perm_insertionSort paramLE l1).trans hperm).trans
      (List.perm_insertionSort paramLE l2).symm
  exact List.eq_of_perm_of_sorted hp (sortedParams_strictSorted l1 hnd)
    (sortedParams_strictSorted l2 hnd2)

/-- Claim C3: the derived cache key is independent of parameter insertion
order: permuting the (distinct-name) name/value pairs leaves the key
unchanged; with no parameters the key is the path, otherwise the path
followed by `?` and the sorted `name=value` pairs joined by `&`. -/
theorem C3_key_order_independence (endpoint : String)
    (l1 l2 : List (String × String)) (hperm : l1.Perm l2)
    (hnd : (l1.map Prod.fst).Nodup) :
    generateKey endpoint l1 = generateKey endpoint l2 ∧
    generateKey endpoint [] = endpoint ∧
    (l1 ≠ [] →
      generateKey endpoint l1 = endpoint ++ "?" ++ renderParams (sortedParams l1)) := by
  refine ⟨?_, rfl, ?_⟩
  · have hemp : l1.isEmpty = l2.isEmpty := by
      have hlen := hperm.length_eq
      cases l1 <;> cases l2 <;> simp_all
    unfold generateKey
    rw [hemp, sortedParams_eq_of_perm hperm hnd]
  · intro h
    simp [generateKey, h]

/-- Witness for C3: the two insertion orders of `{a:1, b:2}` on
`/products` derive the identical key. -/
theorem C3_witness :
    generateKey "/products" [("b", "2"), ("a", "1")] =
      generateKey "/products" [("a", "1"), ("b", "2")] :=
  (C3_key_order_independence "/products" [("b", "2"), ("a", "1")]
    [("a", "1"), ("b", "2")] (by decide) (by decide)).1

theorem prefix_of_prefix_append_cons {β : Type} {c : β} {t l1 l2 : List β}
    (h : t <+: l1 ++ c :: l2) (hc : c ∉ t) : t <+: l1 := by
  induction t generalizing l1 with
  | nil => exact List.nil_prefix
  | cons x t' ih =>
    cases l1 with
    | nil =>
      rw [List.nil_append] at h
      obtain ⟨rfl, -⟩ := List.cons_prefix_cons.mp h
      exact absurd (List.mem_cons_self _ _) hc
    | cons y l1' =>
      rw [List.cons_append] at h
      obtain ⟨rfl, h'⟩ := List.cons_prefix_cons.mp h
      exact List.cons_prefix_cons.mpr
        ⟨rfl, ih h' (fun hm => hc (List.mem_cons_of_mem _ hm))⟩

theorem infix_of_infix_append_cons {β : Type} {c : β} {t l1 l2 : List β}
    (h : t <:+: l1 ++ c :: l2) (hc : c ∉ t) : t <:+: l1 ∨ t <:+: l2 := by
  induction l1 with
  | nil =>
    rw [List.nil_append] at h
    rcases List.infix_cons_iff.mp h with hp | hi
    · cases t with
      | nil => exact Or.inl List.nil_infix
      | cons x t' =>
        obtain ⟨rfl, -⟩ := List.cons_prefix_cons.mp hp
        exact absurd (List.mem_cons_self _ _) hc
    · exact Or.inr hi
  | cons y l1' ih =>
    rw [List.cons_append] at h
    rcases List.infix_cons_iff.mp h with hp | hi
    · cases t with
      | nil => exact Or.inl List.nil_infix
      | cons x t' =>
        obtain ⟨rfl, h'⟩ := List.cons_prefix_cons.mp hp
        have h'' := prefix_of_prefix_append_cons h'
          (fun hm => hc (List.mem_cons_of_mem _ hm))
        exact Or.inl ( List.IsPrefix.isInfix (List.cons_prefix_cons.mpr ⟨rfl, h''⟩))
    · rcases ih hi with h1 | h2
      · exact Or.inl ( List.IsInfix.trans h1
          ( List.IsSuffix.isInfix (List.suffix_cons y l1')))
      · exact Or.inr h2

theorem data_append_query (endpoint r : String) :
    (endpoint ++ "?" ++ r).data = endpoint.data ++ '?' :: r.data := by
  rw [String.data_append, String.data_append]
  rw [show ("?" : String).data = ['?'] from rfl]
  simp

/-- A marker that contains no `?` and does contain `/` occurs in
`endpoint?paramText` exactly when it occurs in `endpoint`, provided the
rendered parameter text contains no `/`. -/
theorem includes_append_query {endpoint r m : String} (hq : '?' ∉ m.data)
    (hs : '/' ∈ m.data) (hr : '/' ∉ r.data) :
    includes (endpoint ++ "?" ++ r) m = includes endpoint m := by
  rw [includes, includes, data_append_query]
  rw [decide_eq_decide]
  constructor
  · intro h
    rcases infix_of_infix_append_cons h hq with h1 | h2
    · exact h1
    · exact absurd (h2.subset hs) hr
  · intro h
    exact List.IsInfix.trans h ( List.IsPrefix.isInfix (List.prefix_append _ _))

theorem includes_query_true (endpoint r : String) :
    includes (endpoint ++ "?" ++ r) "?" = true := by
  rw [includes, data_append_query, decide_eq_true_eq]
  exact ⟨endpoint.data, r.data, by simp⟩

theorem slash_not_mem_renderParams {params : List (String × String)}
    (h : ∀ pr ∈ params, ¬ '/' ∈ pr.1.data ∧ ¬ '/' ∈ pr.2.data) :
    ¬ '/' ∈ (renderParams params).data := by
  induction params with
  | nil => decide
  | cons p rest ih =>
    cases rest with
    | nil =>
      have hp := h p (by simp)
      intro hx
      rw [show renderParams [p] = p.1 ++ "=" ++ p.2 from rfl,
        String.data_append, String.data_append] at hx
      rcases List.mem_append.mp hx with hx1 | hx2
      · rcases List.mem_append.mp hx1 with hy1 | hy2
        · exact hp.1 hy1
        · exact absurd hy2 (by decide)
      · exact hp.2 hx2
    | cons q rest' =>
      have hp := h p (by simp)
      have hrest := ih (fun pr hpr => h pr (List.mem_cons_of_mem _ hpr))
      intro hx
      rw [show renderParams (p :: q :: rest') =
          p.1 ++ "=" ++ p.2 ++ "&" ++ renderParams (q :: rest') from rfl,
        String.data_append, String.data_append, String.data_append,
        String.data_append] at hx
      rcases List.mem_append.mp hx with hx1 | hx2
      · rcases List.mem_append.mp hx1 with hy1 | hy2
        · rcases List.mem_append.mp hy1 with hz1 | hz2
          · rcases List.mem_append.mp hz1 with hw1 | hw2
            · exact hp.1 hw1
            · exact absurd hw2 (by decide)
          · exact hp.2 hz2
        · exact absurd hy2 (by decide)
      · exact hrest hx2

/-- Counterexample to claim C4 as stated: for the path `/auth/session`,
`set` with the parameter `{redirect: "/products/featured"}` stores a
different TTL (the featured 30-minute TTL, since TTL resolution scans the
full derived key) than `set` with no parameters (the 5-minute default). -/
theorem C4_counterexample :
    (mapGet (cacheSet DEFAULT_TTL ([] : Store Nat) 0 "/auth/session" 0
        [("redirect", "/products/featured")])
      (generateKey "/auth/session" [("redirect", "/products/featured")])).map CacheEntry.ttl ≠
    (mapGet (cacheSet DEFAULT_TTL ([] : Store Nat) 0 "/auth/session" 0 [])
      (generateKey "/auth/session" [])).map CacheEntry.ttl := by
  decide

/-- Claim C4, amended: TTL resolution scans the full derived key, so
parameter text can change which rule matches (see the counterexample).
When no parameter name or value contains the character `/` — so the query
string cannot introduce a marker match — the only rule a query string can
still affect is the item-detail rule (its `key` must lack `?`), which
falls through to the item-list rule; whenever the configured single-item
and item-list TTLs agree (as in the default configuration), the effective
TTL assigned by `set` with parameters therefore equals the TTL assigned
with no parameters. -/
theorem C4_ttl_of_path_amended (cfg : CacheConfig) (endpoint : String)
    (params : List (String × String))
    (hs : ∀ pr ∈ params, ¬ '/' ∈ pr.1.data ∧ ¬ '/' ∈ pr.2.data)
    (hcfg : cfg.products = cfg.productList) :
    getTTL cfg (generateKey endpoint params) = getTTL cfg (generateKey endpoint []) := by
  cases hpe : params.isEmpty
  case true =>
    rw [List.isEmpty_iff.mp hpe]
  case false =>
    have hkey : generateKey endpoint params =
        endpoint ++ "?" ++ renderParams (sortedParams params) := by
      rw [generateKey, if_neg]
      simp [hpe]
    have hs' : ∀ pr ∈ sortedParams params, ¬ '/' ∈ pr.1.data ∧ ¬ '/' ∈ pr.2.data :=
      fun pr hpr => hs pr ((List.perm_insertionSort paramLE params).subset hpr)
    have hr := slash_not_mem_renderParams hs'
    have hgen : generateKey endpoint [] = endpoint := rfl
    rw [hkey, hgen]
    have e1 := @includes_append_query endpoint
      (renderParams (sortedParams params))
      "/products/featured" (by decide) (by decide) hr
    have e2 := @includes_append_query endpoint
      (renderParams (sortedParams params))
      "/products/categories" (by decide) (by decide) hr
    have e3 := @includes_append_query endpoint
      (renderParams (sortedParams params))
      "/products/" (by decide) (by decide) hr
    have e4 := @includes_append_query endpoint
      (renderParams (sortedParams params))
      "/products" (by decide) (by decide) hr
    have e5 := @includes_append_query endpoint
      (renderParams (sortedParams params))
      "/favorites/count" (by decide) (by decide) hr
    have e6 := @includes_append_query endpoint
      (renderParams (sortedParams params))
      "/favorites" (by decide) (by decide) hr
    have e7 := @includes_append_query endpoint
      (renderParams (sortedParams params))
      "/users" (by decide) (by decide) hr
    have eq8 := includes_query_true endpoint (renderParams (sortedParams params))
    rw [getTTL, getTTL, e1, e2, e3, e4, e5, e6, e7, eq8]
    by_cases h3 : includes endpoint "/products/" = true
    · have hp' : includes endpoint "/products" = true :=
        includes_mono h3 (by decide)
      simp [h3, hp', hcfg]
    · simp [h3]

/-- Witness for the amended C4: on `/products/7` with the slash-free
parameter `{a:1}`, `set` resolves the same effective TTL as with no
parameters under the default configuration. -/
theorem C4_witness :
    getTTL DEFAULT_TTL (generateKey "/products/7" [("a", "1")]) =
      getTTL DEFAULT_TTL (generateKey "/products/7" []) :=
  C4_ttl_of_path_amended DEFAULT_TTL "/products/7" [("a", "1")] (by decide) rfl

/-- Claim C10: key derivation does not escape `?`, `&`, `=`, so it is not
injective: `{a: "1&b=2"}` and `{a: "1", b: "2"}` derive the identical key,
and a `get` with one parameter set observes the entry stored under the
other. -/
theorem C10_key_not_injective :
    generateKey "/items" [("a", "1&b=2")] = generateKey "/items" [("a", "1"), ("b", "2")] ∧
    ([("a", "1&b=2")] : List (String × String)) ≠ [("a", "1"), ("b", "2")] ∧
    (cacheGet (cacheSet DEFAULT_TTL ([] : Store Nat) 0 "/items" 42 [("a", "1&b=2")]) 0
      "/items" [("a", "1"), ("b", "2")]).1 = some 42 :=
  ⟨by decide, by decide, by decide⟩

example : generateKey "/products" [] = "/products" := by decide
example : generateKey "/products" [("b", "2"), ("a", "1")] = "/products?a=1&b=2" := by decide
example : getTTL DEFAULT_TTL "/products/featured" = 1800000 := by decide
example : getTTL DEFAULT_TTL "/products/7" = 1800000 := by decide
example : getTTL DEFAULT_TTL "/products?category=x" = 1800000 := by decide
example : getTTL DEFAULT_TTL "/auth/login" = 300000 := by decide
example : getTTL DEFAULT_TTL "/other?x=/products/featured" = 1800000 := by decide
example : getTTL DEFAULT_TTL "/favorites/count" = 300000 := by decide
example : getTTL DEFAULT_TTL "/users" = 600000 := by decide

end CacheModel
